import Mathlib

/-!
Verification of the token-issuance / verification pipeline of `src/server.js`.

The server issues JWTs signed with a process-wide secret (`createToken`),
rate-limits `POST /token` (express-rate-limit, 15 minute window, max 5),
validates the username (express-validator: trim, notEmpty, isLength min 3),
and guards `GET /secure-data` behind the `authenticate` middleware.

The third-party libraries (jsonwebtoken, express-rate-limit,
express-validator) are not part of the repository's sources; their
behaviour is modelled from the specification's contracts (ClaimsCodec,
RateGovernor, validation error shape).  Everything else is translated
directly from `src/server.js`.
-/

/-- Identity claim embedded in a token: `jwt.sign({ user }, ...)` adds
`iat` (seconds) and, via `expiresIn: "1h"`, `exp = iat + 3600`. -/
structure Claim where
  user : String
  iat : Nat
  exp : Nat
deriving DecidableEq

/-- Decode failure kinds of the spec's ClaimsCodec (`InvalidSignature`,
`Expired`, `Malformed`). -/
inductive VerifyError where
  | invalidSignature
  | expired
  | malformed
deriving DecidableEq

/-- Modelled from the spec: serialization of a natural number inside the
token body (unary digits closed by a terminator), an injective,
self-delimiting encoding standing in for the JSON/base64url layer of
jsonwebtoken, which is not part of the sources. -/
def encNat : Nat → List Char
  | 0 => ['E']
  | n + 1 => 'U' :: encNat n

/-- Parser for `encNat`, returning the value and the unconsumed rest. -/
def parseNat : List Char → Option (Nat × List Char)
  | [] => none
  | c :: r =>
    if c = 'E' then some (0, r)
    else if c = 'U' then
      match parseNat r with
      | none => none
      | some (n, rest) => some (n + 1, rest)
    else none

/-- Modelled from the spec: serialization of a character string inside the
token body (length-prefixed), injective and self-delimiting. -/
def encChars (cs : List Char) : List Char := encNat cs.length ++ cs

/-- Parser for `encChars`, returning the characters and the rest. -/
def parseChars (l : List Char) : Option (List Char × List Char) :=
  match parseNat l with
  | none => none
  | some (n, r) => if n ≤ r.length then some (r.take n, r.drop n) else none

/-- Serialized payload of a claim: subject, issued-at, expiry. -/
def serializeClaim (c : Claim) : List Char :=
  encChars c.user.data ++ encNat c.iat ++ encNat c.exp

/-- Parse a claim prefix off a token; the unconsumed rest is the
signature part. `none` models a malformed token. -/
def parseClaim (l : List Char) : Option (Claim × List Char) :=
  match parseChars l with
  | none => none
  | some (cs, r1) =>
    match parseNat r1 with
    | none => none
    | some (iatv, r2) =>
      match parseNat r2 with
      | none => none
      | some (expv, r3) => some (⟨⟨cs⟩, iatv, expv⟩, r3)

/-- Modelled from the spec: the signature over a claim under a secret.
The spec's invariant is only that a matching signature proves the token
was produced under the issuing secret for exactly this claim, so the
model uses an ideal message authentication code: the signed payload
followed by the secret. -/
def macSign (secret : String) (c : Claim) : List Char :=
  serializeClaim c ++ secret.data

/-- `createToken` of src/server.js: `jwt.sign({ user }, SECRET_KEY,
{ expiresIn: "1h" })`.  `nowSec` is the clock in seconds; jsonwebtoken
sets `iat = nowSec` and `exp = nowSec + 3600`. -/
def createToken (secret : String) (nowSec : Nat) (user : String) : List Char :=
  serializeClaim ⟨user, nowSec, nowSec + 3600⟩ ++
    macSign secret ⟨user, nowSec, nowSec + 3600⟩

/-- Modelled from the spec: `jwt.verify` / ClaimsCodec.decode — fails with
`Malformed` if the token cannot be parsed, `InvalidSignature` if the
signature does not match the secret, `Expired` if the clock has reached
`exp` (jsonwebtoken rejects when `now >= exp`); otherwise returns the
claim. -/
def jwtVerify (secret : String) (nowSec : Nat) (token : List Char) :
    Except VerifyError Claim :=
  match parseClaim token with
  | none => .error .malformed
  | some (c, sig) =>
    if sig = macSign secret c then
      if nowSec < c.exp then .ok c else .error .expired
    else .error .invalidSignature

/-- Whether a verification result is a success. -/
def verifyOk : Except VerifyError Claim → Bool
  | .ok _ => true
  | .error _ => false

/-- Modelled from the spec: a validation error item as reported in the
400 response body: `{ field, message }`. -/
structure ValidationError where
  field : String
  message : String
deriving DecidableEq

/-- JSON response body: a `message`, a list of validation `errors`, or an
`access_token`. -/
inductive Body where
  | message (m : String)
  | errors (es : List ValidationError)
  | accessToken (t : List Char)
deriving DecidableEq

/-- An HTTP response: status code and JSON body. -/
structure Response where
  status : Nat
  body : Body
deriving DecidableEq

/-- Rate window entry per client key: request count and window start
(milliseconds), per the spec's data model. -/
structure RateEntry where
  count : Nat
  windowStart : Nat
deriving DecidableEq

/-- The limiter's per-key store, keyed by client network address. -/
abbrev RateState := List (String × RateEntry)

/-- Find the rate entry of a client key. -/
def lookupEntry (key : String) : RateState → Option RateEntry
  | [] => none
  | (k, e) :: r => if k = key then some e else lookupEntry key r

/-- Store the rate entry of a client key. -/
def setEntry (key : String) (e : RateEntry) : RateState → RateState
  | [] => [(key, e)]
  | (k, e0) :: r =>
    if k = key then (key, e) :: r else (k, e0) :: setEntry key e r

/-- Modelled from the spec: RateGovernor.admit — fixed-window counting.
If no window exists for the key or the window has expired
(`now - windowStart >= windowMs`), start a new window with count 1 and
admit.  Otherwise increment; if the result exceeds the maximum, reject
without incrementing further; else admit. -/
def rateAdmit (winMs maxReq now : Nat) (key : String) (st : RateState) :
    Bool × RateState :=
  match lookupEntry key st with
  | none => (true, setEntry key ⟨1, now⟩ st)
  | some e =>
    if winMs ≤ now - e.windowStart then (true, setEntry key ⟨1, now⟩ st)
    else if maxReq < e.count + 1 then (false, st)
    else (true, setEntry key ⟨e.count + 1, e.windowStart⟩ st)

/-- Window duration of the limiter in src/server.js: `15 * 60 * 1000` ms. -/
def windowMs : Nat := 15 * 60 * 1000

/-- Maximum requests per window of the limiter in src/server.js: 5. -/
def maxRequests : Nat := 5

/-- Whitespace test used by the trim sanitizer. -/
def isSpaceChar (c : Char) : Bool :=
  c == ' ' || c == '\t' || c == '\n' || c == '\r'

/-- The `.trim()` sanitizer of the validation chain: strips leading and
trailing whitespace (and mutates the request body). -/
def jsTrim (s : String) : String :=
  ⟨((s.data.dropWhile isSpaceChar).reverse.dropWhile isSpaceChar).reverse⟩

/-- The validation chain of src/server.js:
`body("username").trim().notEmpty().withMessage("Username is required")
.isLength({ min: 3 }).withMessage("Username must be at least 3 characters
long")`; each failed validator contributes one error item for the
`username` field. -/
def validateUsername (u : String) : List ValidationError :=
  (if jsTrim u = "" then [⟨"username", "Username is required"⟩] else []) ++
    (if (jsTrim u).length < 3 then
      [⟨"username", "Username must be at least 3 characters long"⟩] else [])

/-- The `POST /token` route of src/server.js.  The rate limiter is the
first middleware, so it runs before validation; an admitted request is
validated, and on success the trimmed username (the sanitizer mutates
`req.body`) is signed into a token returned as `{ access_token }`.
`nowMs` is the clock in milliseconds; jsonwebtoken works at second
granularity, hence `nowMs / 1000`. -/
def handleToken (secret : String) (nowMs : Nat) (key u : String)
    (st : RateState) : Response × RateState :=
  let p := rateAdmit windowMs maxRequests nowMs key st
  if p.1 = false then
    (⟨429, .message "Too many requests, please try again later."⟩, p.2)
  else
    let errs := validateUsername u
    if errs = [] then
      (⟨200, .accessToken (createToken secret (nowMs / 1000) (jsTrim u))⟩, p.2)
    else (⟨400, .errors errs⟩, p.2)

/-- The rate state after `n` issuance requests with username `u` from
client `key` at time `nowMs`, starting from an empty store. -/
def issueN (secret key u : String) (nowMs : Nat) : Nat → RateState
  | 0 => []
  | n + 1 => (handleToken secret nowMs key u (issueN secret key u nowMs n)).2

/-- JS `String.prototype.startsWith` on character lists: does the second
list start with the first? -/
def startsWithChars : List Char → List Char → Bool
  | [], _ => true
  | _ :: _, [] => false
  | p :: ps, c :: cs => p == c && startsWithChars ps cs

/-- Helper of the JS `split(" ")`: first field and remaining fields. -/
def splitSpAux : List Char → List Char × List (List Char)
  | [] => ([], [])
  | c :: r =>
    let p := splitSpAux r
    if c = ' ' then ([], p.1 :: p.2) else (c :: p.1, p.2)

/-- JS `split(" ")`: fields separated at every single space. -/
def splitSp (l : List Char) : List (List Char) :=
  (splitSpAux l).1 :: (splitSpAux l).2

/-- The `authenticate` middleware of src/server.js: respond 401 when the
Authorization header is absent or does not start with `"Bearer "`;
otherwise verify `authHeader.split(" ")[1]` and either respond 401 or
attach `decoded.user` and continue. -/
def authenticate (secret : String) (nowSec : Nat)
    (authHeader : Option String) : Except Response String :=
  match authHeader with
  | none => .error ⟨401, .message "Unauthorized: No token provided"⟩
  | some h =>
    if startsWithChars "Bearer ".data h.data then
      match jwtVerify secret nowSec ((splitSp h.data).getD 1 []) with
      | .error _ => .error ⟨401, .message "Invalid or expired token"⟩
      | .ok c => .ok c.user
    else .error ⟨401, .message "Unauthorized: No token provided"⟩

/-- The `GET /secure-data` route: the authenticate middleware either
responds itself, or the handler greets the authenticated user. -/
def handleSecureData (secret : String) (nowSec : Nat)
    (authHeader : Option String) : Response :=
  match authenticate secret nowSec authHeader with
  | .error r => r
  | .ok u => ⟨200, .message ("Hello, " ++ u ++ "!")⟩

/-! ### Parser / serializer round-trip and injectivity lemmas -/

theorem parseNat_encNat (n : Nat) (r : List Char) :
    parseNat (encNat n ++ r) = some (n, r) := by
  induction n with
  | zero => simp [encNat, parseNat]
  | succ n ih => simp [encNat, parseNat, ih]

theorem parseNat_inv (l : List Char) (n : Nat) (r : List Char)
    (h : parseNat l = some (n, r)) : l = encNat n ++ r := by
  induction l generalizing n r with
  | nil => simp [parseNat] at h
  | cons c l' ih =>
    by_cases hE : c = 'E'
    · simp [parseNat, hE] at h
      obtain ⟨h1, h2⟩ := h
      simp [← h1, encNat, hE, h2]
    · by_cases hU : c = 'U'
      · simp [parseNat, hE, hU] at h
        cases hp : parseNat l' with
        | none => simp [hp] at h
        | some p =>
          obtain ⟨n', rest⟩ := p
          simp [hp] at h
          obtain ⟨h1, h2⟩ := h
          have := ih n' rest hp
          simp [← h1, encNat, hU, this, h2]
      · simp [parseNat, hE, hU] at h

theorem parseChars_encChars (cs r : List Char) :
    parseChars (encChars cs ++ r) = some (cs, r) := by
  unfold parseChars encChars
  rw [List.append_assoc, parseNat_encNat]
  simp [List.take_left, List.drop_left]

theorem parseChars_inv (l cs r : List Char)
    (h : parseChars l = some (cs, r)) : l = encChars cs ++ r := by
  unfold parseChars at h
  cases hp : parseNat l with
  | none => simp [hp] at h
  | some p =>
    obtain ⟨n, r0⟩ := p
    simp [hp] at h
    by_cases hn : n ≤ r0.length
    · simp [hn] at h
      obtain ⟨h1, h2⟩ := h
      have hl := parseNat_inv l n r0 hp
      have hlen : cs.length = n := by rw [← h1]; simp [Nat.min_eq_left hn]
      rw [hl, encChars, hlen]
      rw [List.append_assoc]
      congr 1
      rw [← h1, ← h2]
      exact (List.take_append_drop n r0).symm
    · simp [hn] at h

theorem parseClaim_serializeClaim (c : Claim) (r : List Char) :
    parseClaim (serializeClaim c ++ r) = some (c, r) := by
  unfold parseClaim serializeClaim
  rw [List.append_assoc, List.append_assoc, parseChars_encChars]
  simp [parseNat_encNat]

theorem parseClaim_inv (l : List Char) (c : Claim) (r : List Char)
    (h : parseClaim l = some (c, r)) : l = serializeClaim c ++ r := by
  unfold parseClaim at h
  cases hs : parseChars l with
  | none => simp [hs] at h
  | some p1 =>
    obtain ⟨cs, r1⟩ := p1
    simp [hs] at h
    cases h1 : parseNat r1 with
    | none => simp [h1] at h
    | some p2 =>
      obtain ⟨iatv, r2⟩ := p2
      simp [h1] at h
      cases h2 : parseNat r2 with
      | none => simp [h2] at h
      | some p3 =>
        obtain ⟨expv, r3⟩ := p3
        simp [h2] at h
        obtain ⟨hc, hr⟩ := h
        have e1 := parseChars_inv l cs r1 hs
        have e2 := parseNat_inv r1 iatv r2 h1
        have e3 := parseNat_inv r2 expv r3 h2
        subst hr
        rw [e1, e2, e3, ← hc]
        simp [serializeClaim]

/-- **C1** (round-trip): for any subject `s` with length ≥ 3, verifying a
token produced by `createToken` under the same secret, at any time before
the TTL elapses, succeeds and returns the claim whose subject is `s`
(with `iat = nowSec` and `exp = nowSec + 3600`). -/
theorem token_roundtrip (secret s : String) (nowSec tv : Nat)
    (_hs : 3 ≤ s.length) (ht : tv < nowSec + 3600) :
    jwtVerify secret tv (createToken secret nowSec s) =
      .ok ⟨s, nowSec, nowSec + 3600⟩ := by
  unfold jwtVerify createToken
  rw [parseClaim_serializeClaim]
  simp [ht]

/-- Witness for `token_roundtrip` at secret `"secret"`, subject `"abc"`,
issuance time 0, verification time 0. -/
theorem token_roundtrip_witness :
    3 ≤ ("abc" : String).length ∧ (0 : Nat) < 0 + 3600 ∧
      jwtVerify "secret" 0 (createToken "secret" 0 "abc") =
        .ok ⟨"abc", 0, 0 + 3600⟩ :=
  ⟨by decide, by decide, token_roundtrip "secret" "abc" 0 0 (by decide) (by decide)⟩

/-! ### Issuance: validation and rate limiting -/

/-- **C5** (validation acceptance): from a fresh rate window, issuance
with username `""`, `"  "`, or `"ab"` is rejected with a 400 validation
error, and issuance with `"abc"` succeeds with `{access_token: token}`. -/
theorem validation_accepts_abc (secret key : String) (nowMs : Nat) :
    (handleToken secret nowMs key "" []).1 =
      ⟨400, .errors [⟨"username", "Username is required"⟩,
        ⟨"username", "Username must be at least 3 characters long"⟩]⟩ ∧
    (handleToken secret nowMs key "  " []).1 =
      ⟨400, .errors [⟨"username", "Username is required"⟩,
        ⟨"username", "Username must be at least 3 characters long"⟩]⟩ ∧
    (handleToken secret nowMs key "ab" []).1 =
      ⟨400, .errors [⟨"username", "Username must be at least 3 characters long"⟩]⟩ ∧
    (handleToken secret nowMs key "abc" []).1 =
      ⟨200, .accessToken (createToken secret (nowMs / 1000) "abc")⟩ :=
  ⟨rfl, rfl, rfl, rfl⟩

/-- Behaviour of the governor when the key has no window yet. -/
theorem rateAdmit_lookup_none (w m now : Nat) (key : String)
    (st : RateState) (hl : lookupEntry key st = none) :
    rateAdmit w m now key st = (true, setEntry key ⟨1, now⟩ st) := by
  unfold rateAdmit
  rw [hl]

/-- Behaviour of the governor when the key has a window. -/
theorem rateAdmit_lookup_some (w m now : Nat) (key : String)
    (st : RateState) (e : RateEntry) (hl : lookupEntry key st = some e) :
    rateAdmit w m now key st =
      if w ≤ now - e.windowStart then (true, setEntry key ⟨1, now⟩ st)
      else if m < e.count + 1 then (false, st)
      else (true, setEntry key ⟨e.count + 1, e.windowStart⟩ st) := by
  unfold rateAdmit
  rw [hl]

/-- **C3** (validation failure shape): an admitted issuance request whose
username fails validation (trimmed length < 3) is answered with status
400 and a non-empty `errors` array whose every element carries the
`field` key `"username"` and a `message` key with the per-field detail. -/
theorem validation_failure_shape (secret key u : String) (nowMs : Nat)
    (st : RateState)
    (hadm : (rateAdmit windowMs maxRequests nowMs key st).1 = true)
    (hbad : (jsTrim u).length < 3) :
    (handleToken secret nowMs key u st).1.status = 400 ∧
    ∃ es, (handleToken secret nowMs key u st).1.body = .errors es ∧
      es ≠ [] ∧ ∀ e ∈ es, e.field = "username" ∧
        (e.message = "Username is required" ∨
         e.message = "Username must be at least 3 characters long") := by
  have herr : validateUsername u ≠ [] := by
    unfold validateUsername
    by_cases h0 : jsTrim u = "" <;> simp [h0, hbad]
  simp only [handleToken, hadm]
  by_cases h0 : jsTrim u = "" <;>
    simp [validateUsername, h0, hbad, ValidationError.field,
      ValidationError.message]

/-- Witness for `validation_failure_shape`: username `"ab"`, empty rate
store. -/
theorem validation_failure_shape_witness :
    (rateAdmit windowMs maxRequests 0 "k" []).1 = true ∧
      (jsTrim "ab").length < 3 ∧
      ((handleToken "secret" 0 "k" "ab" []).1.status = 400 ∧
       ∃ es, (handleToken "secret" 0 "k" "ab" []).1.body = .errors es ∧
         es ≠ [] ∧ ∀ e ∈ es, e.field = "username" ∧
           (e.message = "Username is required" ∨
            e.message = "Username must be at least 3 characters long")) :=
  ⟨rfl, by decide,
    validation_failure_shape "secret" "k" "ab" 0 [] rfl (by decide)⟩

/-- **C4**, counterexample: with the client's budget exhausted (five
admitted requests already made), the next request with the invalid
username `"ab"` is answered 429, not 400 — the limiter middleware runs
before validation in src/server.js. -/
theorem rate_precedence_counterexample :
    (handleToken "secret" 0 "1.2.3.4" "ab"
        (issueN "secret" "1.2.3.4" "abc" 0 5)).1 =
      ⟨429, .message "Too many requests, please try again later."⟩ ∧
    (handleToken "secret" 0 "1.2.3.4" "ab"
        (issueN "secret" "1.2.3.4" "abc" 0 5)).1.status ≠ 400 := by
  have h1 : (handleToken "secret" 0 "1.2.3.4" "ab"
      (issueN "secret" "1.2.3.4" "abc" 0 5)).1 =
      ⟨429, .message "Too many requests, please try again later."⟩ := rfl
  refine ⟨h1, ?_⟩
  rw [h1]
  decide

/-- **C4**, amended: the rate check runs before username validation — a
rate-rejected request is answered 429 with the limiter message whatever
its username (valid or not), the rate store is left unchanged, and no
token is created. -/
theorem rate_check_runs_first (secret key u : String) (nowMs : Nat)
    (st : RateState)
    (hrej : (rateAdmit windowMs maxRequests nowMs key st).1 = false) :
    (handleToken secret nowMs key u st).1 =
      ⟨429, .message "Too many requests, please try again later."⟩ ∧
    (handleToken secret nowMs key u st).2 = st := by
  have h2 : (rateAdmit windowMs maxRequests nowMs key st).2 = st := by
    rcases hl : lookupEntry key st with _ | e
    · rw [rateAdmit_lookup_none windowMs maxRequests nowMs key st hl] at hrej
      simp at hrej
    · rw [rateAdmit_lookup_some windowMs maxRequests nowMs key st e hl]
        at hrej ⊢
      by_cases hw : windowMs ≤ nowMs - e.windowStart
      · rw [if_pos hw] at hrej
        simp at hrej
      · rw [if_neg hw] at hrej ⊢
        by_cases hm : maxRequests < e.count + 1
        · rw [if_pos hm]
        · rw [if_neg hm] at hrej
          simp at hrej
  simp [handleToken, hrej, h2]

/-- Witness for `rate_check_runs_first`: a store in which key `"k"` has
used its five requests in the current window. -/
theorem rate_check_runs_first_witness :
    (rateAdmit windowMs maxRequests 0 "k" [("k", ⟨5, 0⟩)]).1 = false ∧
      ((handleToken "secret" 0 "k" "ab" [("k", ⟨5, 0⟩)]).1 =
        ⟨429, .message "Too many requests, please try again later."⟩ ∧
       (handleToken "secret" 0 "k" "ab" [("k", ⟨5, 0⟩)]).2 =
        [("k", ⟨5, 0⟩)]) :=
  ⟨rfl, rate_check_runs_first "secret" "k" "ab" 0 [("k", ⟨5, 0⟩)] rfl⟩

/-- **C2** (rate limiting): after five admitted issuance requests from
client `k` at time `t` (each answered 200), the sixth request from `k`
within the window is answered 429 with the limiter message; a request
from a different client `k2` at the same moment is answered 200; and a
request from `k` after the window has elapsed is answered 200 again. -/
theorem rate_limit_window (secret k k2 : String) (t d t2 : Nat)
    (hk : k2 ≠ k) (hd : d < windowMs) (ht2 : t + windowMs ≤ t2) :
    (handleToken secret t k "abc" (issueN secret k "abc" t 0)).1.status = 200 ∧
    (handleToken secret t k "abc" (issueN secret k "abc" t 1)).1.status = 200 ∧
    (handleToken secret t k "abc" (issueN secret k "abc" t 2)).1.status = 200 ∧
    (handleToken secret t k "abc" (issueN secret k "abc" t 3)).1.status = 200 ∧
    (handleToken secret t k "abc" (issueN secret k "abc" t 4)).1.status = 200 ∧
    (handleToken secret (t + d) k "abc" (issueN secret k "abc" t 5)).1 =
      ⟨429, .message "Too many requests, please try again later."⟩ ∧
    (handleToken secret (t + d) k2 "abc" (issueN secret k "abc" t 5)).1.status
      = 200 ∧
    (handleToken secret t2 k "abc" (issueN secret k "abc" t 5)).1.status
      = 200 := by
  have habc : validateUsername "abc" = [] := by decide
  have hw0 : ¬ (windowMs ≤ (0 : Nat)) := by decide
  have hm2 : ¬ (maxRequests < 2) := by decide
  have hm3 : ¬ (maxRequests < 3) := by decide
  have hm4 : ¬ (maxRequests < 4) := by decide
  have hm5 : ¬ (maxRequests < 5) := by decide
  have hm6 : maxRequests < 6 := by decide
  have hl1 : lookupEntry k [(k, (⟨1, t⟩ : RateEntry))] = some ⟨1, t⟩ := by
    simp [lookupEntry]
  have hl2 : lookupEntry k [(k, (⟨2, t⟩ : RateEntry))] = some ⟨2, t⟩ := by
    simp [lookupEntry]
  have hl3 : lookupEntry k [(k, (⟨3, t⟩ : RateEntry))] = some ⟨3, t⟩ := by
    simp [lookupEntry]
  have hl4 : lookupEntry k [(k, (⟨4, t⟩ : RateEntry))] = some ⟨4, t⟩ := by
    simp [lookupEntry]
  have hl5 : lookupEntry k [(k, (⟨5, t⟩ : RateEntry))] = some ⟨5, t⟩ := by
    simp [lookupEntry]
  have s1 : issueN secret k "abc" t 1 = [(k, ⟨1, t⟩)] := by
    show (handleToken secret t k "abc" []).2 = _
    simp [handleToken, rateAdmit_lookup_none windowMs maxRequests t k [] rfl,
      setEntry, habc]
  have s2 : issueN secret k "abc" t 2 = [(k, ⟨2, t⟩)] := by
    show (handleToken secret t k "abc" (issueN secret k "abc" t 1)).2 = _
    rw [s1]
    simp [handleToken, rateAdmit_lookup_some windowMs maxRequests t k _ _ hl1,
      Nat.sub_self, hw0, hm2, setEntry, habc]
  have s3 : issueN secret k "abc" t 3 = [(k, ⟨3, t⟩)] := by
    show (handleToken secret t k "abc" (issueN secret k "abc" t 2)).2 = _
    rw [s2]
    simp [handleToken, rateAdmit_lookup_some windowMs maxRequests t k _ _ hl2,
      Nat.sub_self, hw0, hm3, setEntry, habc]
  have s4 : issueN secret k "abc" t 4 = [(k, ⟨4, t⟩)] := by
    show (handleToken secret t k "abc" (issueN secret k "abc" t 3)).2 = _
    rw [s3]
    simp [handleToken, rateAdmit_lookup_some windowMs maxRequests t k _ _ hl3,
      Nat.sub_self, hw0, hm4, setEntry, habc]
  have s5 : issueN secret k "abc" t 5 = [(k, ⟨5, t⟩)] := by
    show (handleToken secret t k "abc" (issueN secret k "abc" t 4)).2 = _
    rw [s4]
    simp [handleToken, rateAdmit_lookup_some windowMs maxRequests t k _ _ hl4,
      Nat.sub_self, hw0, hm5, setEntry, habc]
  refine ⟨?_, ?_, ?_, ?_, ?_, ?_, ?_, ?_⟩
  · rw [show issueN secret k "abc" t 0 = [] from rfl]
    simp [handleToken, rateAdmit_lookup_none windowMs maxRequests t k [] rfl,
      habc]
  · rw [s1]
    simp [handleToken, rateAdmit_lookup_some windowMs maxRequests t k _ _ hl1,
      Nat.sub_self, hw0, hm2, habc]
  · rw [s2]
    simp [handleToken, rateAdmit_lookup_some windowMs maxRequests t k _ _ hl2,
      Nat.sub_self, hw0, hm3, habc]
  · rw [s3]
    simp [handleToken, rateAdmit_lookup_some windowMs maxRequests t k _ _ hl3,
      Nat.sub_self, hw0, hm4, habc]
  · rw [s4]
    simp [handleToken, rateAdmit_lookup_some windowMs maxRequests t k _ _ hl4,
      Nat.sub_self, hw0, hm5, habc]
  · rw [s5]
    have hsub : t + d - t = d := by omega
    have hwd : ¬ (windowMs ≤ d) := Nat.not_le.mpr hd
    simp [handleToken,
      rateAdmit_lookup_some windowMs maxRequests (t + d) k _ _ hl5, hsub,
      hwd, hm6]
  · rw [s5]
    have hkk : ¬ (k = k2) := fun h => hk h.symm
    have hl : lookupEntry k2 [(k, (⟨5, t⟩ : RateEntry))] = none := by
      simp [lookupEntry, hkk]
    simp [handleToken,
      rateAdmit_lookup_none windowMs maxRequests (t + d) k2 _ hl, habc]
  · rw [s5]
    have hw : windowMs ≤ t2 - t := by omega
    simp [handleToken,
      rateAdmit_lookup_some windowMs maxRequests t2 k _ _ hl5, hw, habc]

/-- Witness for `rate_limit_window`: clients `"1.1.1.1"` and `"2.2.2.2"`,
first window starting at time 0, sixth request at time 0, reset request
at time `windowMs`. -/
theorem rate_limit_window_witness :
    ("2.2.2.2" : String) ≠ "1.1.1.1" ∧ (0 : Nat) < windowMs ∧
      (0 : Nat) + windowMs ≤ windowMs ∧
      (handleToken "secret" (0 + 0) "1.1.1.1" "abc"
          (issueN "secret" "1.1.1.1" "abc" 0 5)).1 =
        ⟨429, .message "Too many requests, please try again later."⟩ :=
  ⟨by decide, by decide, by decide,
    (rate_limit_window "secret" "1.1.1.1" "2.2.2.2" 0 0 windowMs
      (by decide) (by decide) (by decide)).2.2.2.2.2.1⟩

/-! ### AuthGuard -/

/-- **C7** (missing/malformed header): when the Authorization header is
absent or does not start with `"Bearer "`, the middleware answers 401
with `"Unauthorized: No token provided"` and the protected handler is
never reached (the route's response is the middleware's). -/
theorem auth_no_token (secret : String) (nowSec : Nat) (ah : Option String)
    (h : ah = none ∨ ∃ s, ah = some s ∧
      startsWithChars "Bearer ".data s.data = false) :
    authenticate secret nowSec ah =
      .error ⟨401, .message "Unauthorized: No token provided"⟩ ∧
    handleSecureData secret nowSec ah =
      ⟨401, .message "Unauthorized: No token provided"⟩ := by
  rcases h with h | ⟨s, hs, hpre⟩
  · subst h
    exact ⟨rfl, rfl⟩
  · subst hs
    constructor
    · simp [authenticate, hpre]
    · simp [handleSecureData, authenticate, hpre]

/-- Witness for `auth_no_token`: absent header. -/
theorem auth_no_token_witness :
    (authenticate "secret" 0 none =
      .error ⟨401, .message "Unauthorized: No token provided"⟩ ∧
    handleSecureData "secret" 0 none =
      ⟨401, .message "Unauthorized: No token provided"⟩) :=
  auth_no_token "secret" 0 none (Or.inl rfl)

/-- **C6** (decode failure collapse): whenever verification of the
extracted token fails — whatever the failure kind `e` (bad signature,
expired, malformed) — the middleware answers 401 with the single message
`"Invalid or expired token"`, so the failure kinds are
indistinguishable in the response. -/
theorem auth_decode_failure (secret : String) (nowSec : Nat) (h : String)
    (e : VerifyError)
    (hpre : startsWithChars "Bearer ".data h.data = true)
    (hv : jwtVerify secret nowSec ((splitSp h.data).getD 1 []) = .error e) :
    authenticate secret nowSec (some h) =
      .error ⟨401, .message "Invalid or expired token"⟩ ∧
    handleSecureData secret nowSec (some h) =
      ⟨401, .message "Invalid or expired token"⟩ := by
  have hv2 : jwtVerify secret nowSec ((splitSp h.data)[1]?.getD []) =
      .error e := by simpa using hv
  constructor
  · simp [authenticate, hpre, hv2]
  · simp [handleSecureData, authenticate, hpre, hv2]

/-- Witness for `auth_decode_failure`: header `"Bearer x"`, whose token
`"x"` is malformed. -/
theorem auth_decode_failure_witness :
    startsWithChars "Bearer ".data ("Bearer x" : String).data = true ∧
    jwtVerify "secret" 0 ((splitSp ("Bearer x" : String).data).getD 1 []) =
      .error .malformed ∧
    authenticate "secret" 0 (some "Bearer x") =
      .error ⟨401, .message "Invalid or expired token"⟩ :=
  ⟨rfl, rfl,
    (auth_decode_failure "secret" 0 "Bearer x" .malformed rfl rfl).1⟩

/-! ### Issued-token invariant -/

/-- **C8** (TTL invariant): every token issued by a successful
`POST /token` embeds a claim with `exp = iat + 3600` (one hour), whose
subject is the trimmed username, non-empty and of length ≥ 3. -/
theorem issued_token_invariant (secret key u : String) (nowMs : Nat)
    (st : RateState) (tok : List Char)
    (h : (handleToken secret nowMs key u st).1 = ⟨200, .accessToken tok⟩) :
    ∃ c sig, parseClaim tok = some (c, sig) ∧
      c.exp = c.iat + 3600 ∧ c.user ≠ "" ∧ 3 ≤ c.user.length ∧
      c.user = jsTrim u := by
  simp only [handleToken] at h
  by_cases hadm : (rateAdmit windowMs maxRequests nowMs key st).1 = false
  · rw [if_pos hadm] at h
    simp at h
  · rw [if_neg hadm] at h
    by_cases hval : validateUsername u = []
    · rw [if_pos hval] at h
      simp only [Response.mk.injEq, Body.accessToken.injEq] at h
      have htok : tok = createToken secret (nowMs / 1000) (jsTrim u) :=
        h.2.symm
      have hlen : 3 ≤ (jsTrim u).length := by
        unfold validateUsername at hval
        by_cases h0 : jsTrim u = ""
        · simp [h0] at hval
        · by_cases h3 : (jsTrim u).length < 3
          · simp [h0, h3] at hval
          · omega
      refine ⟨⟨jsTrim u, nowMs / 1000, nowMs / 1000 + 3600⟩,
        macSign secret ⟨jsTrim u, nowMs / 1000, nowMs / 1000 + 3600⟩,
        ?_, rfl, ?_, hlen, rfl⟩
      · rw [htok]
        exact parseClaim_serializeClaim _ _
      · intro he
        have he2 : jsTrim u = "" := he
        rw [he2] at hlen
        exact absurd hlen (by decide)
    · rw [if_neg hval] at h
      simp at h

/-- Witness for `issued_token_invariant`: username `"abc"`, fresh store,
time 0. -/
theorem issued_token_invariant_witness :
    (handleToken "secret" 0 "k" "abc" []).1 =
      ⟨200, .accessToken (createToken "secret" 0 "abc")⟩ ∧
    (∃ c sig, parseClaim (createToken "secret" 0 "abc") = some (c, sig) ∧
      c.exp = c.iat + 3600 ∧ c.user ≠ "" ∧ 3 ≤ c.user.length ∧
      c.user = jsTrim "abc") :=
  ⟨rfl, issued_token_invariant "secret" "k" "abc" 0 []
    (createToken "secret" 0 "abc") rfl⟩

/-! ### Token extraction from the Authorization header -/

theorem startsWithChars_append (p r : List Char) :
    startsWithChars p (p ++ r) = true := by
  induction p with
  | nil => rfl
  | cons c cs ih => simp [startsWithChars, ih]

theorem splitSpAux_first (l : List Char) :
    (splitSpAux l).1 = l.takeWhile (fun c => !(c == ' ')) := by
  induction l with
  | nil => rfl
  | cons c r ih =>
    by_cases hc : c = ' '
    · simp [splitSpAux, hc, List.takeWhile_cons]
    · simp [splitSpAux, hc, List.takeWhile_cons, ih]

theorem splitSp_bearer (t : List Char) :
    splitSp ("Bearer ".data ++ t) = "Bearer".data :: splitSp t := by
  have hd : "Bearer ".data = ['B', 'e', 'a', 'r', 'e', 'r', ' '] := rfl
  have hd2 : "Bearer".data = ['B', 'e', 'a', 'r', 'e', 'r'] := rfl
  rw [hd, hd2]
  simp [splitSp, splitSpAux]

/-- **C10** (extraction via `split(" ")[1]`): the token the middleware
verifies is the substring of the header between the first and second
space — for a header `"Bearer " ++ t` that is the part of `t` before its
first space, so a presented token containing a space is only verified up
to that space; and for the header exactly `"Bearer "` the extracted
token is empty, hence the request is answered 401. -/
theorem bearer_token_extraction (secret t : String) (nowSec : Nat) :
    (splitSp ("Bearer " ++ t).data).getD 1 [] =
      t.data.takeWhile (fun c => !(c == ' ')) ∧
    authenticate secret nowSec (some ("Bearer " ++ t)) =
      (match jwtVerify secret nowSec
          (t.data.takeWhile (fun c => !(c == ' '))) with
       | .error _ => .error ⟨401, .message "Invalid or expired token"⟩
       | .ok c => .ok c.user) ∧
    authenticate secret nowSec (some "Bearer ") =
      .error ⟨401, .message "Invalid or expired token"⟩ := by
  have hdata : ("Bearer " ++ t).data = "Bearer ".data ++ t.data := rfl
  have hex : (splitSp ("Bearer " ++ t).data).getD 1 [] =
      t.data.takeWhile (fun c => !(c == ' ')) := by
    rw [hdata, splitSp_bearer]
    simp [splitSp, splitSpAux_first]
  refine ⟨hex, ?_, ?_⟩
  · have hpre : startsWithChars "Bearer ".data ("Bearer " ++ t).data = true := by
      rw [hdata]
      exact startsWithChars_append _ _
    have hpre2 : startsWithChars ['B', 'e', 'a', 'r', 'e', 'r', ' ']
        ('B' :: 'e' :: 'a' :: 'r' :: 'e' :: 'r' :: ' ' :: t.data) = true := by
      simpa using hpre
    have hex3 : (splitSp
          ('B' :: 'e' :: 'a' :: 'r' :: 'e' :: 'r' :: ' ' :: t.data))[1]?.getD
        [] = t.data.takeWhile (fun c => !(c == ' ')) := by
      simpa using hex
    simp [authenticate, hpre2, hex3]
  · rfl

/-! ### Tamper resistance -/

theorem jwtVerify_parse_none (secret : String) (nowSec : Nat)
    (tok : List Char) (hp : parseClaim tok = none) :
    jwtVerify secret nowSec tok = .error .malformed := by
  unfold jwtVerify
  rw [hp]

theorem jwtVerify_parse_some (secret : String) (nowSec : Nat)
    (tok : List Char) (c : Claim) (sig : List Char)
    (hp : parseClaim tok = some (c, sig)) :
    jwtVerify secret nowSec tok =
      if sig = macSign secret c then
        if nowSec < c.exp then .ok c else .error .expired
      else .error .invalidSignature := by
  unfold jwtVerify
  rw [hp]

theorem encNat_length (n : Nat) : (encNat n).length = n + 1 := by
  induction n with
  | zero => rfl
  | succ n ih => simp [encNat, ih]

theorem createToken_length_pos (secret : String) (nowSec : Nat)
    (user : String) : 0 < (createToken secret nowSec user).length := by
  show 0 < (serializeClaim _ ++ macSign _ _).length
  simp only [List.length_append, serializeClaim, encChars, encNat_length,
    macSign]
  omega

theorem take_set_of_le (l : List Char) (i n : Nat) (a : Char) (h : n ≤ i) :
    (l.set i a).take n = l.take n := by
  induction l generalizing i n with
  | nil => simp
  | cons x xs ih =>
    cases i with
    | zero =>
      have hn : n = 0 := Nat.le_zero.mp h
      subst hn
      simp
    | succ j =>
      cases n with
      | zero => simp
      | succ m =>
        simp only [List.set, List.take]
        rw [ih j m (Nat.succ_le_succ_iff.mp h)]

theorem drop_set_of_lt (l : List Char) (i n : Nat) (a : Char) (h : i < n) :
    (l.set i a).drop n = l.drop n := by
  induction l generalizing i n with
  | nil => simp
  | cons x xs ih =>
    cases n with
    | zero => exact absurd h (Nat.not_lt_zero i)
    | succ m =>
      cases i with
      | zero => simp [List.set]
      | succ j =>
        simp only [List.set, List.drop]
        exact ih j m (Nat.lt_of_succ_lt_succ h)

theorem set_eq_self_get (l : List Char) (i : Nat) (a : Char)
    (h : i < l.length) (he : l.set i a = l) : l.get ⟨i, h⟩ = a := by
  induction l generalizing i with
  | nil => exact absurd h (Nat.not_lt_zero i)
  | cons x xs ih =>
    cases i with
    | zero =>
      simp [List.set] at he
      simp [List.get]
      exact he.symm
    | succ j =>
      simp [List.set] at he
      have hj : j < xs.length := Nat.lt_of_succ_lt_succ h
      simpa [List.get] using ih j hj he

/-- **C9** (tamper resistance): changing any single byte of a token
produced by `createToken` makes verification under the same secret fail,
at any verification time. -/
theorem tamper_detected (secret s : String) (nowSec tv i : Nat) (ch : Char)
    (hi : i < (createToken secret nowSec s).length)
    (hch : (createToken secret nowSec s).get ⟨i, hi⟩ ≠ ch) :
    verifyOk (jwtVerify secret tv ((createToken secret nowSec s).set i ch))
      = false := by
  cases hp : parseClaim ((createToken secret nowSec s).set i ch) with
  | none =>
    rw [jwtVerify_parse_none secret tv _ hp]
    rfl
  | some p =>
    obtain ⟨c, sig⟩ := p
    rw [jwtVerify_parse_some secret tv _ c sig hp]
    by_cases hsig : sig = macSign secret c
    · exfalso
      have hT' : (createToken secret nowSec s).set i ch =
          serializeClaim c ++ (serializeClaim c ++ secret.data) := by
        have h1 := parseClaim_inv _ c sig hp
        rw [h1, hsig]
        rfl
      have hTe : createToken secret nowSec s =
          serializeClaim ⟨s, nowSec, nowSec + 3600⟩ ++
            (serializeClaim ⟨s, nowSec, nowSec + 3600⟩ ++ secret.data) := rfl
      have hlen : ((createToken secret nowSec s).set i ch).length =
          (createToken secret nowSec s).length := List.length_set _ _ _
      rw [hT'] at hlen
      conv at hlen => rw [hTe]
      simp only [List.length_append] at hlen
      have hL : (serializeClaim c).length =
          (serializeClaim ⟨s, nowSec, nowSec + 3600⟩).length := by omega
      have hSS : serializeClaim c =
          serializeClaim ⟨s, nowSec, nowSec + 3600⟩ := by
        rcases Nat.lt_or_ge i
            (serializeClaim ⟨s, nowSec, nowSec + 3600⟩).length with hlt | hge
        · have e1 := drop_set_of_lt (createToken secret nowSec s) i
            (serializeClaim ⟨s, nowSec, nowSec + 3600⟩).length ch hlt
          rw [hT'] at e1
          conv at e1 => rw [hTe]
          rw [List.drop_left' hL, List.drop_left] at e1
          have e2 := congrArg (fun l => List.take (serializeClaim c).length l) e1
          simpa [List.take_left, List.take_left' hL.symm] using e2
        · have e1 := take_set_of_le (createToken secret nowSec s) i
            (serializeClaim ⟨s, nowSec, nowSec + 3600⟩).length ch hge
          rw [hT'] at e1
          conv at e1 => rw [hTe]
          rw [List.take_left' hL, List.take_left] at e1
          exact e1
      rw [hSS] at hT'
      rw [← hTe] at hT'
      exact hch (set_eq_self_get _ i ch hi hT')
    · simp [hsig, verifyOk]

/-- Witness for `tamper_detected`: the first byte of a fresh token for
subject `"abc"` changed to `'Z'`. -/
theorem tamper_detected_witness :
    verifyOk (jwtVerify "secret" 0
      ((createToken "secret" 0 "abc").set 0 'Z')) = false :=
  tamper_detected "secret" "abc" 0 0 0 'Z'
    (createToken_length_pos "secret" 0 "abc") (by decide)
